import Mathlib

/-!
Shallow embedding of the VHDL-to-LLHD lowering core of the `moore` compiler
(`src/vhdl/codegen.rs` and `src/vhdl/make_ctx.rs`), together with theorems
checking the natural-language specification against it.

Rust `Result` plus the possibility of `panic!` / `unreachable!` /
`unimplemented!` is modelled by the three-way outcome type `Res`.
Arbitrary-precision integers (`num::BigInt`) are modelled by `Int`,
identifiers (the various `...Ref` node-id types) by `Nat`, and interned
names (`Name`) by `String`.
-/

namespace Moore

/-- Errors that a lowering step can return (the `Err` side of
`moore_common::score::Result`). The variants named by the specification
(`UnsupportedConstant`, `Unsupported(kind)`) are included so that claims
about them are statable; `other` stands for failures propagated from the
excluded collaborator stages (HIR lookup, type check, constant folding). -/
inductive Err where
  | unsupportedConstant : Err
  | unsupported (kind : String) : Err
  | other (n : Nat) : Err
deriving DecidableEq, Repr

/-- Outcome of running a piece of the Rust code: a returned `Ok` value, a
returned `Err`, or a `panic!` (which in Rust aborts; `unreachable!` and
`unimplemented!` are panics with fixed messages). -/
inductive Res (α : Type) where
  | ok (a : α) : Res α
  | err (e : Err) : Res α
  | panic (msg : String) : Res α
deriving DecidableEq, Repr

namespace Res

/-- The `?` operator: propagate `Err`; a panic likewise aborts the caller. -/
def bind {α β : Type} : Res α → (α → Res β) → Res β
  | .ok a, f => f a
  | .err e, _ => .err e
  | .panic m, _ => .panic m

instance : Monad Res where
  pure := .ok
  bind := Res.bind

/-- Whether the outcome is a returned error (`Err`). -/
def isErr {α : Type} : Res α → Bool
  | .err _ => true
  | _ => false

end Res

/-- Range direction `hir::Dir`. -/
inductive Dir where
  | to : Dir
  | downto : Dir
deriving DecidableEq, Repr

/-- The `IntTy` payload of `Ty::Int`: a ranged integer type with a
direction and two `BigInt` bounds. -/
structure IntTy where
  dir : Dir
  left_bound : Int
  right_bound : Int
deriving DecidableEq, Repr

/-- The `EnumTy` payload of `Ty::Enum`: a reference to the enclosing type
declaration. -/
structure EnumTy where
  decl : Nat
deriving DecidableEq, Repr

/-- Semantic VHDL types (`ty::Ty`). -/
inductive Ty where
  | named (n : Nat) : Ty
  | null : Ty
  | int (t : IntTy) : Ty
  | enum (t : EnumTy) : Ty
  | unboundedInt : Ty
deriving DecidableEq, Repr

/-- The payload of `Const::Int`: an arbitrary-precision value. -/
structure IntConst where
  value : Int
deriving DecidableEq, Repr

/-- The payload of `Const::Enum`: the declaration of the enum type and the
index of the literal within it. -/
structure EnumConst where
  decl : Nat
  index : Nat
deriving DecidableEq, Repr

/-- Semantic constant values (`konst::Const`). `Float`, `IntRange` and
`FloatRange` carry payloads irrelevant to lowering (the code matches them
with `_`), so they are modelled as bare tags. -/
inductive Const where
  | null : Const
  | int (k : IntConst) : Const
  | enum (k : EnumConst) : Const
  | float : Const
  | intRange : Const
  | floatRange : Const
deriving DecidableEq, Repr

/-- LLHD types (`llhd::Type`), restricted to the constructors the lowering
core produces: `void_ty()`, `int_ty(width)`, `enum_ty(cardinality)` and
`entity_ty(inputs, outputs)`. -/
inductive LlhdType where
  | void : LlhdType
  | int (width : Nat) : LlhdType
  | enum (card : Nat) : LlhdType
  | entity (ins outs : List LlhdType) : LlhdType

/-- `llhd::void_ty()`. -/
def void_ty : LlhdType := .void

/-- `llhd::int_ty(width)`. -/
def int_ty (width : Nat) : LlhdType := .int width

/-- `llhd::enum_ty(cardinality)`. -/
def enum_ty (card : Nat) : LlhdType := .enum card

/-- `llhd::entity_ty(inputs, outputs)`. -/
def entity_ty (ins outs : List LlhdType) : LlhdType := .entity ins outs

/-- An LLHD integer constant, as produced by `llhd::const_int(width, value)`. -/
structure LlhdConstInt where
  width : Nat
  value : Int
deriving DecidableEq, Repr

/-- `llhd::const_int(width, value)`. -/
def const_int (width : Nat) (value : Int) : LlhdConstInt := ⟨width, value⟩

/-- LLHD value references (`llhd::ValueRef`), restricted to what the core
produces: constants (via `.into()` on a `ConstInt`) and process handles
(via `.into()` on the `ProcessRef` returned by `Module::add_process`,
modelled as the index of the process in the module store). -/
inductive ValueRef where
  | const (k : LlhdConstInt) : ValueRef
  | process (r : Nat) : ValueRef
deriving DecidableEq, Repr

/-- Instruction payloads (`llhd::InstKind`), restricted to the two kinds
the core emits: `SignalInst(type, Some(initial))` and
`InstanceInst(type, target, inputs, outputs)`. -/
inductive InstKind where
  | signalInst (ty : LlhdType) (init : Option ValueRef) : InstKind
  | instanceInst (ty : LlhdType) (target : ValueRef)
      (ins outs : List ValueRef) : InstKind

/-- An instruction (`llhd::Inst::new(name, kind)`). -/
structure Inst where
  name : Option String
  kind : InstKind

/-- `llhd::InstPosition`; the core only ever uses `End`. -/
inductive InstPosition where
  | atEnd : InstPosition
deriving DecidableEq, Repr

/-- An LLHD entity (the IR container): a name and an ordered instruction
sequence. -/
structure Entity where
  name : String
  insts : List Inst

/-- `Entity::add_inst(inst, position)`: `End` appends at the end of the
instruction sequence. -/
def Entity.add_inst (e : Entity) (i : Inst) : InstPosition → Entity
  | .atEnd => { e with insts := e.insts ++ [i] }

/-- An LLHD process (`llhd::Process::new(name, type)`); the body is empty
in this core. -/
structure Process where
  name : String
  ty : LlhdType

/-- The module-wide IR store (`self.sb.llmod`): the list of all processes
registered so far. -/
structure Module where
  processes : List Process

/-- `Module::add_process`: append-only registration returning the opaque
handle (modelled as the index of the new process). -/
def Module.add_process (m : Module) (p : Process) : Module × Nat :=
  ({ processes := m.processes ++ [p] }, m.processes.length)

/-- `hir::TypeData`, restricted to what the core inspects: the `Enum`
variant with its literal list (literals are opaque, only their count
matters) and a tag for every other variant. -/
inductive TypeData where
  | enum (name : Nat) (lits : List Nat) : TypeData
  | otherData : TypeData
deriving DecidableEq, Repr

/-- The HIR of a type declaration, as consulted by `map_type`/`map_const`:
its optional `data` field. -/
structure TypeDeclHir where
  data : Option TypeData
deriving DecidableEq, Repr

/-- The HIR of a signal declaration (`existing_hir(SignalDeclRef)`): the
declared name and the optional initializer expression id. -/
structure SignalDeclHir where
  name : String
  init : Option Nat
deriving DecidableEq, Repr

/-- The HIR of a process statement (`hir(ProcessStmtRef)`): the optional
label. -/
structure ProcessStmtHir where
  label : Option String
deriving DecidableEq, Repr

/-- The query interface of `ScoreContext` as consumed by the lowering core.
Each field is one of the memoized queries listed in the specification's
external-interface section; their implementations live in the excluded
collaborator stages, so they are oracle functions here. -/
structure ScoreContext where
  deref_named_type : Ty → Res Ty
  hir_type_decl : Nat → Res TypeDeclHir
  hir_process : Nat → Res ProcessStmtHir
  existing_hir : Nat → Res SignalDeclHir
  ty : Nat → Res Ty
  const_value : Nat → Res Const
  default_value_for_type : Ty → Res Const

/-- Bit length of the magnitude of a `num::BigInt`, i.e. `BigInt::bits()`:
0 for 0, and ⌊log2 n⌋ + 1 for n ≥ 1. Implemented with the magnitude
itself as recursion fuel so that it evaluates by kernel reduction. -/
def bitsAux : Nat → Nat → Nat
  | _, 0 => 0
  | 0, _ + 1 => 0
  | fuel + 1, n + 1 => bitsAux fuel ((n + 1) / 2) + 1

/-- `BigInt::bits()` on the magnitude of `d`. -/
def bigint_bits (d : Int) : Nat := bitsAux d.natAbs d.natAbs

/-- The `diff` computed by `map_type` for an `Int` type: `right - left`
for direction `To`, `left - right` for `Downto`. -/
def intDiff (t : IntTy) : Int :=
  match t.dir with
  | .to => t.right_bound - t.left_bound
  | .downto => t.left_bound - t.right_bound

/-- `ScoreContext::map_type` (codegen.rs lines 33-63): map a VHDL type to
the corresponding LLHD type. -/
def map_type (sc : ScoreContext) (ty0 : Ty) : Res LlhdType := do
  let ty ← sc.deref_named_type ty0
  match ty with
  | .named _ => .panic "unreachable"
  | .null => pure void_ty
  | .int t =>
      let diff := intDiff t
      if diff < 0 then
        pure void_ty
      else
        pure (int_ty (bigint_bits diff))
  | .enum t => do
      let hir ← sc.hir_type_decl t.decl
      match hir.data with
      | some (.enum _ lits) => pure (enum_ty lits.length)
      | _ => .panic "unreachable"
  | .unboundedInt => .panic "unreachable"

/-- `ScoreContext::map_const` (codegen.rs lines 66-81): map a constant
value to the LLHD counterpart. -/
def map_const (sc : ScoreContext) (konst : Const) : Res ValueRef :=
  match konst with
  | .null => pure (.const (const_int 0 0))
  | .int k => pure (.const (const_int 999 k.value))
  | .enum k => do
      let hir ← sc.hir_type_decl k.decl
      match hir.data with
      | some (.enum _ lits) => pure (.const (const_int lits.length k.index))
      | _ => .panic "unreachable"
  | .float => .panic "cannot map float constant"
  | .intRange => .panic "cannot map range constant"
  | .floatRange => .panic "cannot map range constant"

/-- The instruction built by the `SignalDeclRef` codegen (codegen.rs lines
104-122) before it is appended: look up the declaration's HIR and checked
type, evaluate the initializer expression if present or else the type's
default value, and build a signal instruction named after the declaration
holding the mapped type and mapped initial value. The `println!` logging
of the source is omitted. -/
def codegen_signal_inst (sc : ScoreContext) (id : Nat) : Res Inst := do
  let hir ← sc.existing_hir id
  let ty ← sc.ty id
  let init ←
    match hir.init with
    | some init_id => sc.const_value init_id
    | none => sc.default_value_for_type ty
  let lty ← map_type sc ty
  let lval ← map_const sc init
  pure ⟨some hir.name, .signalInst lty (some lval)⟩

/-- `Codegen<SignalDeclRef, llhd::Entity>::codegen` (codegen.rs lines
104-125): on success the built signal instruction is appended at the end
of the container; on a returned error or panic the container is left
untouched (every fallible step precedes the `add_inst` call). -/
def codegen_signal_decl (sc : ScoreContext) (id : Nat) (ctx : Entity) :
    Res Unit × Entity :=
  match codegen_signal_inst sc id with
  | .ok inst => (.ok (), ctx.add_inst inst .atEnd)
  | .err e => (.err e, ctx)
  | .panic m => (.panic m, ctx)

/-- `Codegen<ConstDeclRef, llhd::Entity>::codegen` (codegen.rs lines
99-101): `unimplemented!()`, i.e. a panic with message "not implemented". -/
def codegen_const_decl (_sc : ScoreContext) (_id : Nat) (ctx : Entity) :
    Res Unit × Entity :=
  (.panic "not implemented", ctx)

/-- `Codegen<SharedVarDeclRef, llhd::Entity>::codegen` (codegen.rs lines
128-130): `unimplemented!()`. -/
def codegen_shared_var_decl (_sc : ScoreContext) (_id : Nat) (ctx : Entity) :
    Res Unit × Entity :=
  (.panic "not implemented", ctx)

/-- `Codegen<FileDeclRef, llhd::Entity>::codegen` (codegen.rs lines
133-135): `unimplemented!()`. -/
def codegen_file_decl (_sc : ScoreContext) (_id : Nat) (ctx : Entity) :
    Res Unit × Entity :=
  (.panic "not implemented", ctx)

/-- `DeclInBlockRef`: the declaration kinds that can appear in a block. -/
inductive DeclInBlockRef where
  | pkg (id : Nat) : DeclInBlockRef
  | pkgInst (id : Nat) : DeclInBlockRef
  | typeDecl (id : Nat) : DeclInBlockRef
  | subtypeDecl (id : Nat) : DeclInBlockRef
  | constDecl (id : Nat) : DeclInBlockRef
  | signal (id : Nat) : DeclInBlockRef
  | sharedVar (id : Nat) : DeclInBlockRef
  | file (id : Nat) : DeclInBlockRef
deriving DecidableEq, Repr

/-- `Codegen<DeclInBlockRef, llhd::Entity>::codegen` (codegen.rs lines
85-96): dispatch on the declaration kind; package, package instantiation,
type and subtype declarations emit nothing and succeed. -/
def codegen_decl_in_block (sc : ScoreContext) (id : DeclInBlockRef)
    (ctx : Entity) : Res Unit × Entity :=
  match id with
  | .pkg _ => (.ok (), ctx)
  | .pkgInst _ => (.ok (), ctx)
  | .typeDecl _ => (.ok (), ctx)
  | .subtypeDecl _ => (.ok (), ctx)
  | .constDecl id => codegen_const_decl sc id ctx
  | .signal id => codegen_signal_decl sc id ctx
  | .sharedVar id => codegen_shared_var_decl sc id ctx
  | .file id => codegen_file_decl sc id ctx

/-- `Codegen<ProcessStmtRef, llhd::Entity>::codegen` (codegen.rs lines
155-177): derive the process name from the container name and the
optional label, register a new process with an empty entity interface in
the module-wide store, and append an instantiation instruction (named
after the label if present) referencing the returned handle with empty
input and output port lists at the end of the container. -/
def codegen_process_stmt (sc : ScoreContext) (id : Nat) (m : Module)
    (ctx : Entity) : Res Unit × Module × Entity :=
  match sc.hir_process id with
  | .err e => (.err e, m, ctx)
  | .panic s => (.panic s, m, ctx)
  | .ok hir =>
    let name :=
      match hir.label with
      | some n => ctx.name ++ "_" ++ n
      | none => ctx.name ++ "_proc"
    let ty := entity_ty [] []
    let prok : Process := ⟨name, ty⟩
    let (m2, prok_ref) := m.add_process prok
    let inst : Inst := ⟨hir.label, .instanceInst ty (.process prok_ref) [] []⟩
    (.ok (), m2, ctx.add_inst inst .atEnd)

/-- `Codegen<BlockStmtRef, llhd::Entity>::codegen` (codegen.rs lines
151-153): `unimplemented!()`. -/
def codegen_block_stmt (_sc : ScoreContext) (_id : Nat) (m : Module)
    (ctx : Entity) : Res Unit × Module × Entity :=
  (.panic "not implemented", m, ctx)

/-- `Codegen<ConcProcCallStmtRef, llhd::Entity>::codegen` (codegen.rs lines
179-181): `unimplemented!()`. -/
def codegen_conc_proc_call_stmt (_sc : ScoreContext) (_id : Nat) (m : Module)
    (ctx : Entity) : Res Unit × Module × Entity :=
  (.panic "not implemented", m, ctx)

/-- `Codegen<ConcAssertStmtRef, llhd::Entity>::codegen` (codegen.rs lines
183-185): `unimplemented!()`. -/
def codegen_conc_assert_stmt (_sc : ScoreContext) (_id : Nat) (m : Module)
    (ctx : Entity) : Res Unit × Module × Entity :=
  (.panic "not implemented", m, ctx)

/-- `Codegen<ConcSigAssignStmtRef, llhd::Entity>::codegen` (codegen.rs
lines 187-189): `unimplemented!()`. -/
def codegen_conc_sig_assign_stmt (_sc : ScoreContext) (_id : Nat) (m : Module)
    (ctx : Entity) : Res Unit × Module × Entity :=
  (.panic "not implemented", m, ctx)

/-- `Codegen<CompInstStmtRef, llhd::Entity>::codegen` (codegen.rs lines
191-193): `unimplemented!()`. -/
def codegen_comp_inst_stmt (_sc : ScoreContext) (_id : Nat) (m : Module)
    (ctx : Entity) : Res Unit × Module × Entity :=
  (.panic "not implemented", m, ctx)

/-- `Codegen<ForGenStmtRef, llhd::Entity>::codegen` (codegen.rs lines
195-197): `unimplemented!()`. -/
def codegen_for_gen_stmt (_sc : ScoreContext) (_id : Nat) (m : Module)
    (ctx : Entity) : Res Unit × Module × Entity :=
  (.panic "not implemented", m, ctx)

/-- `Codegen<IfGenStmtRef, llhd::Entity>::codegen` (codegen.rs lines
199-201): `unimplemented!()`. -/
def codegen_if_gen_stmt (_sc : ScoreContext) (_id : Nat) (m : Module)
    (ctx : Entity) : Res Unit × Module × Entity :=
  (.panic "not implemented", m, ctx)

/-- `Codegen<CaseGenStmtRef, llhd::Entity>::codegen` (codegen.rs lines
203-205): `unimplemented!()`. -/
def codegen_case_gen_stmt (_sc : ScoreContext) (_id : Nat) (m : Module)
    (ctx : Entity) : Res Unit × Module × Entity :=
  (.panic "not implemented", m, ctx)

/-- `ConcStmtRef`: the concurrent statement kinds. -/
inductive ConcStmtRef where
  | block (id : Nat) : ConcStmtRef
  | process (id : Nat) : ConcStmtRef
  | concProcCall (id : Nat) : ConcStmtRef
  | concAssert (id : Nat) : ConcStmtRef
  | concSigAssign (id : Nat) : ConcStmtRef
  | compInst (id : Nat) : ConcStmtRef
  | forGen (id : Nat) : ConcStmtRef
  | ifGen (id : Nat) : ConcStmtRef
  | caseGen (id : Nat) : ConcStmtRef
deriving DecidableEq, Repr

/-- `Codegen<ConcStmtRef, llhd::Entity>::codegen` (codegen.rs lines
137-149): dispatch on the concurrent statement kind. -/
def codegen_conc_stmt (sc : ScoreContext) (id : ConcStmtRef) (m : Module)
    (ctx : Entity) : Res Unit × Module × Entity :=
  match id with
  | .block id => codegen_block_stmt sc id m ctx
  | .process id => codegen_process_stmt sc id m ctx
  | .concProcCall id => codegen_conc_proc_call_stmt sc id m ctx
  | .concAssert id => codegen_conc_assert_stmt sc id m ctx
  | .concSigAssign id => codegen_conc_sig_assign_stmt sc id m ctx
  | .compInst id => codegen_comp_inst_stmt sc id m ctx
  | .forGen id => codegen_for_gen_stmt sc id m ctx
  | .ifGen id => codegen_if_gen_stmt sc id m ctx
  | .caseGen id => codegen_case_gen_stmt sc id m ctx

/-- A lazy fact entry (`LazyNode`): either a pending callback or a
memoized result. `φ` is the callback type, `ρ` the result type. -/
inductive LazyNode (φ ρ : Type) where
  | pending (callback : φ) : LazyNode φ ρ
  | done (result : ρ) : LazyNode φ ρ
deriving DecidableEq, Repr

/-- The Scheduler's per-fact-kind tables (`ctx.lazy`): independent tables
for the lowered-form (HIR), type-check and type-evaluation facts, keyed by
the same node-id space. `h`, `t`, `v` are the callback types of the three
tables (`LazyHir`, `LazyTypeck`, `LazyTypeval`); `hr`, `tr`, `vr` their
result types. -/
structure LazyTables (h hr t tr v vr : Type) where
  hir : Nat → Option (LazyNode h hr)
  typeck : Nat → Option (LazyNode t tr)
  typeval : Nat → Option (LazyNode v vr)

/-- `MakeContext` (make_ctx.rs lines 23-30), restricted to the fields its
registration methods read: the span of the node and the id of the node
being constructed. The outer `ScoreContext` is represented by passing the
lazy tables explicitly. -/
structure MakeContext where
  span : Nat × Nat
  id : Nat
deriving DecidableEq, Repr

/-- `MakeContext::new(ctx, span, id)`. -/
def MakeContext.new (span : Nat × Nat) (id : Nat) : MakeContext := ⟨span, id⟩

/-- `MakeContext::finish`: return the node id. -/
def MakeContext.finish (self : MakeContext) : Nat := self.id

/-- `MakeContext::lower_to_hir` (make_ctx.rs lines 52-59): store a
`Pending` entry for this node's id in the HIR table (`.set` on the node
storage overwrites any previous entry for the same id). -/
def MakeContext.lower_to_hir (self : MakeContext)
    (tbl : LazyTables h hr t tr v vr) (f : h) : LazyTables h hr t tr v vr :=
  { tbl with hir := fun k => if k = self.id then some (.pending f) else tbl.hir k }

/-- `MakeContext::typeck` (make_ctx.rs lines 62-65): store a `Pending`
entry for this node's id in the type-check table (`HashMap::insert`
overwrites any previous entry for the same id). -/
def MakeContext.typeck (self : MakeContext)
    (tbl : LazyTables h hr t tr v vr) (f : t) : LazyTables h hr t tr v vr :=
  { tbl with typeck := fun k => if k = self.id then some (.pending f) else tbl.typeck k }

/-- `MakeContext::typeval` (make_ctx.rs lines 68-71): store a `Pending`
entry for this node's id in the type-evaluation table. -/
def MakeContext.typeval (self : MakeContext)
    (tbl : LazyTables h hr t tr v vr) (f : v) : LazyTables h hr t tr v vr :=
  { tbl with typeval := fun k => if k = self.id then some (.pending f) else tbl.typeval k }

/-- State of the Scheduler for the signal-lowering fact kind: the lazy
table for the fact (the registered callback for a signal declaration id is
its codegen, so the pending payload carries no further data and the
memoized result of the unit-returning codegen is `()`), together with the
container the lowering appends into. -/
structure SchedState where
  lowered : Nat → Option (LazyNode Unit Unit)
  entity : Entity

/-- Modelled from the spec: the Scheduler's `demand` operation for the
lowering fact of a signal declaration. The scheduler implementation
(`lazy.rs` and the driver that demands codegen facts) is not among the
sources; per the specification's Scheduler contract, `demand` resolves a
`Pending` entry by invoking its callback exactly once, stores the outcome
as `Done`, and returns it, while a `Done` entry returns the cached outcome
without recomputation. The callback of a signal declaration id is its
signal codegen into the stored container. -/
def demand_signal_lowering (sc : ScoreContext) (id : Nat) (st : SchedState) :
    Res Unit × SchedState :=
  match st.lowered id with
  | some (.done _) => (.ok (), st)
  | _ =>
    let (r, e2) := codegen_signal_decl sc id st.entity
    (r, { lowered := fun k => if k = id then some (.done ()) else st.lowered k,
          entity := e2 })

/-- The integer bit width prescribed by the specification's words for an
`Int` type with non-negative `diff`: ⌈log2(|diff| + 1)⌉ + 1. Stated with
`Nat.clog`, the ceiling logarithm. This definition follows the
specification, not the source, and is compared against `map_type`. -/
def spec_int_width (diff : Int) : Nat := Nat.clog 2 (diff.natAbs + 1) + 1

/-- A concrete oracle context used by the instantiations below: node 10 is
an enum type declaration with three literals, nodes 20 and 21 are a
labeled and an unlabeled process statement, nodes 1 and 3 are signal
declarations of the integer type 0 to 3, with and without an initializer
(expression node 2, constant 1). -/
def scW : ScoreContext where
  deref_named_type := fun t => .ok t
  hir_type_decl := fun d =>
    if d = 10 then .ok ⟨some (.enum 0 [1, 2, 3])⟩ else .err (.other 0)
  hir_process := fun p =>
    if p = 20 then .ok ⟨some "p1"⟩
    else if p = 21 then .ok ⟨none⟩
    else .err (.other 0)
  existing_hir := fun s =>
    if s = 1 then .ok ⟨"sig_a", some 2⟩
    else if s = 3 then .ok ⟨"sig_b", none⟩
    else .err (.other 0)
  ty := fun s =>
    if s = 1 then .ok (.int ⟨.to, 0, 3⟩)
    else if s = 3 then .ok (.int ⟨.to, 0, 3⟩)
    else .err (.other 0)
  const_value := fun e => if e = 2 then .ok (.int ⟨1⟩) else .err (.other 0)
  default_value_for_type := fun _ => .ok (.int ⟨0⟩)

/-- An empty set of scheduler tables over `Nat` payloads, used by the
instantiations below. -/
def tbl0 : LazyTables Nat Nat Nat Nat Nat Nat :=
  ⟨fun _ => none, fun _ => none, fun _ => none⟩

/-- Unfolding lemma for `pure` at `Res`. -/
theorem Res.pure_def {α : Type} (a : α) : (pure a : Res α) = .ok a := rfl

/-- Unfolding lemma for the monadic bind at `Res`. -/
theorem Res.bind_def {α β : Type} (x : Res α) (f : α → Res β) :
    x >>= f = Res.bind x f := rfl

/-- C10: for every `Int` semantic constant, `map_const` succeeds and
returns an integer literal carrying the constant's arbitrary-precision
value exactly (the width is the fixed 999, the value is untouched). -/
theorem map_const_int_exact_value (sc : ScoreContext) (k : IntConst) :
    map_const sc (.int k) = .ok (.const ⟨999, k.value⟩) := rfl

/-- C4: at the failing input — the constant 1 whose declared type is the
integer range 0 to 3 — `map_const` emits a literal of the fixed width 999
while `map_type` gives the declared type the width 2, so the literal's
width does not equal the width produced for the constant's own type. -/
theorem map_const_int_fixed_width_bug :
    map_const scW (.int ⟨1⟩) = .ok (.const ⟨999, 1⟩) ∧
    map_type scW (.int ⟨.to, 0, 3⟩) = .ok (.int 2) ∧
    (999 : Nat) ≠ 2 :=
  ⟨rfl, rfl, by decide⟩

/-- C5 counterexample: mapping a `Float` constant panics with the message
"cannot map float constant"; the outcome is not a returned error at all,
in particular not `UnsupportedConstant`. -/
theorem map_const_unsupported_cex :
    map_const scW .float = .panic "cannot map float constant" ∧
    (map_const scW .float).isErr = false ∧
    map_const scW .float ≠ .err .unsupportedConstant :=
  ⟨rfl, rfl, by decide⟩

/-- C5 amended: for every `Float`, `IntRange` or `FloatRange` constant,
`map_const` panics (with "cannot map float constant" for floats and
"cannot map range constant" for ranges) and never produces an IR
literal. -/
theorem map_const_unsupported_panics (sc : ScoreContext) :
    map_const sc .float = .panic "cannot map float constant" ∧
    map_const sc .intRange = .panic "cannot map range constant" ∧
    map_const sc .floatRange = .panic "cannot map range constant" :=
  ⟨rfl, rfl, rfl⟩

/-- C8 counterexample: lowering a component instantiation statement panics
with the untagged message "not implemented"; the outcome is not a returned
error, in particular not a construct-tagged `Unsupported`. -/
theorem unsupported_construct_cex :
    (codegen_conc_stmt scW (.compInst 5) ⟨[]⟩ ⟨"top", []⟩).1 =
      .panic "not implemented" ∧
    ((codegen_conc_stmt scW (.compInst 5) ⟨[]⟩ ⟨"top", []⟩).1).isErr = false :=
  ⟨rfl, rfl⟩

/-- C8 amended: every out-of-scope declaration kind (constant, shared
variable, file) and every out-of-scope concurrent statement kind (every
kind except process) panics with the untagged "not implemented" and leaves
the container's already-appended instructions (and the module store)
unchanged. -/
theorem unsupported_construct_panics (sc : ScoreContext) (id : Nat)
    (m : Module) (ctx : Entity) :
    codegen_decl_in_block sc (.constDecl id) ctx = (.panic "not implemented", ctx) ∧
    codegen_decl_in_block sc (.sharedVar id) ctx = (.panic "not implemented", ctx) ∧
    codegen_decl_in_block sc (.file id) ctx = (.panic "not implemented", ctx) ∧
    codegen_conc_stmt sc (.block id) m ctx = (.panic "not implemented", m, ctx) ∧
    codegen_conc_stmt sc (.concProcCall id) m ctx = (.panic "not implemented", m, ctx) ∧
    codegen_conc_stmt sc (.concAssert id) m ctx = (.panic "not implemented", m, ctx) ∧
    codegen_conc_stmt sc (.concSigAssign id) m ctx = (.panic "not implemented", m, ctx) ∧
    codegen_conc_stmt sc (.compInst id) m ctx = (.panic "not implemented", m, ctx) ∧
    codegen_conc_stmt sc (.forGen id) m ctx = (.panic "not implemented", m, ctx) ∧
    codegen_conc_stmt sc (.ifGen id) m ctx = (.panic "not implemented", m, ctx) ∧
    codegen_conc_stmt sc (.caseGen id) m ctx = (.panic "not implemented", m, ctx) :=
  ⟨rfl, rfl, rfl, rfl, rfl, rfl, rfl, rfl, rfl, rfl, rfl⟩

/-- C1: for every signal declaration whose HIR, checked type, initial
value (the evaluated constant of the initializer expression when one is
present, the type's default value otherwise) and both mappings succeed,
the codegen appends exactly one signal instruction — named after the
declaration and holding the mapped type and mapped initial value — at the
end of the container's instruction sequence. -/
theorem signal_decl_codegen_spec (sc : ScoreContext) (id : Nat) (ctx : Entity)
    (hir : SignalDeclHir) (ty : Ty) (init : Const) (lty : LlhdType)
    (lval : ValueRef)
    (hhir : sc.existing_hir id = .ok hir)
    (hty : sc.ty id = .ok ty)
    (hinit : match hir.init with
      | some init_id => sc.const_value init_id = .ok init
      | none => sc.default_value_for_type ty = .ok init)
    (hmt : map_type sc ty = .ok lty)
    (hmc : map_const sc init = .ok lval) :
    codegen_signal_decl sc id ctx =
      (.ok (), { ctx with insts := ctx.insts ++
        [⟨some hir.name, .signalInst lty (some lval)⟩] }) := by
  cases hI : hir.init with
  | some i =>
    rw [hI] at hinit
    simp only [codegen_signal_decl, codegen_signal_inst, Res.bind_def, hhir, hty, hI,
      hinit, hmt, hmc, Res.bind, Res.pure_def, Entity.add_inst]
  | none =>
    rw [hI] at hinit
    simp only [codegen_signal_decl, codegen_signal_inst, Res.bind_def, hhir, hty, hI,
      hinit, hmt, hmc, Res.bind, Res.pure_def, Entity.add_inst]

/-- Witness for C1: the signal declaration 1 (name "sig_a", initializer
expression 2 of value 1, type 0 to 3) lowered into the empty container
"top" appends the single signal instruction named "sig_a" of type i2 with
initial value 1. -/
theorem signal_decl_codegen_spec_witness :
    scW.existing_hir 1 = .ok ⟨"sig_a", some 2⟩ ∧
    scW.ty 1 = .ok (.int ⟨.to, 0, 3⟩) ∧
    scW.const_value 2 = .ok (.int ⟨1⟩) ∧
    map_type scW (.int ⟨.to, 0, 3⟩) = .ok (.int 2) ∧
    map_const scW (.int ⟨1⟩) = .ok (.const ⟨999, 1⟩) ∧
    codegen_signal_decl scW 1 ⟨"top", []⟩ =
      (.ok (), ⟨"top", [⟨some "sig_a", .signalInst (.int 2) (some (.const ⟨999, 1⟩))⟩]⟩) :=
  ⟨rfl, rfl, rfl, rfl, rfl,
    signal_decl_codegen_spec scW 1 ⟨"top", []⟩ ⟨"sig_a", some 2⟩ (.int ⟨.to, 0, 3⟩)
      (.int ⟨1⟩) (.int 2) (.const ⟨999, 1⟩) rfl rfl rfl rfl rfl⟩

/-- C2 counterexample: for the ascending range 0 to 7 (diff = 7) the code
produces an integer type of width 3 — the bit length of 7 — while the
claimed formula ⌈log2(|diff| + 1)⌉ + 1 gives 4, so the claimed width is
not the one the code computes. -/
theorem map_type_int_width_cex :
    map_type scW (.int ⟨.to, 0, 7⟩) = .ok (.int 3) ∧
    spec_int_width 7 = 4 ∧
    map_type scW (.int ⟨.to, 0, 7⟩) ≠ .ok (.int (spec_int_width 7)) := by
  have h2 : spec_int_width 7 = 4 := by norm_num [spec_int_width, Nat.clog]
  refine ⟨rfl, h2, ?_⟩
  intro h
  rw [h2] at h
  have h3 : (Res.ok (LlhdType.int 3) : Res LlhdType) = .ok (.int 4) := h
  injection h3 with h4
  injection h4 with h5
  exact absurd h5 (by decide)

/-- C2 amended: for an `Int` type, `map_type` computes diff as
right − left when ascending and left − right when descending; a negative
diff yields the empty type without panicking, a non-negative diff yields
an integer type whose width is the bit length of diff (⌈log2(diff + 1)⌉,
one less than the claimed formula), and the same diff always yields the
same result. -/
theorem map_type_int_amended (sc : ScoreContext) (t : IntTy)
    (hderef : sc.deref_named_type (.int t) = .ok (.int t)) :
    (intDiff t < 0 → map_type sc (.int t) = .ok .void) ∧
    (0 ≤ intDiff t →
      map_type sc (.int t) = .ok (.int (bigint_bits (intDiff t)))) ∧
    (∀ t2 : IntTy, sc.deref_named_type (.int t2) = .ok (.int t2) →
      intDiff t2 = intDiff t → map_type sc (.int t2) = map_type sc (.int t)) := by
  refine ⟨?_, ?_, ?_⟩
  · intro hneg
    simp only [intDiff] at hneg
    simp only [map_type, Res.bind_def, hderef, Res.bind, intDiff, void_ty]
    simp [hneg, Res.pure_def]
  · intro hpos
    simp only [intDiff] at hpos
    simp only [map_type, Res.bind_def, hderef, Res.bind, intDiff, int_ty]
    simp [not_lt.mpr hpos, Res.pure_def, bigint_bits]
  · intro t2 hd2 hdiff
    simp only [map_type, Res.bind_def, hderef, hd2, Res.bind]
    rw [hdiff]

/-- Witness for the amended C2: the descending range 7 downto 0 has
diff = 7 ≥ 0 and maps deterministically to an integer type of width 3. -/
theorem map_type_int_amended_witness :
    scW.deref_named_type (.int ⟨.downto, 7, 0⟩) = .ok (.int ⟨.downto, 7, 0⟩) ∧
    ((intDiff ⟨.downto, 7, 0⟩ < 0 →
        map_type scW (.int ⟨.downto, 7, 0⟩) = .ok .void) ∧
      (0 ≤ intDiff ⟨.downto, 7, 0⟩ →
        map_type scW (.int ⟨.downto, 7, 0⟩) =
          .ok (.int (bigint_bits (intDiff ⟨.downto, 7, 0⟩)))) ∧
      (∀ t2 : IntTy, scW.deref_named_type (.int t2) = .ok (.int t2) →
        intDiff t2 = intDiff ⟨.downto, 7, 0⟩ →
        map_type scW (.int t2) = map_type scW (.int ⟨.downto, 7, 0⟩))) ∧
    map_type scW (.int ⟨.downto, 7, 0⟩) = .ok (.int 3) :=
  ⟨rfl, map_type_int_amended scW ⟨.downto, 7, 0⟩ rfl, rfl⟩

/-- C3: demanding the lowering of the same signal declaration id twice
through the Scheduler appends exactly one instruction to the container,
not two — the first demand runs the codegen and memoizes, the second
returns the cached outcome. The demand operation is modelled from the
specification's Scheduler contract. -/
theorem demand_signal_lowering_idempotent (sc : ScoreContext) (id : Nat)
    (st : SchedState) (inst : Inst)
    (hreg : st.lowered id = some (.pending ()))
    (hok : codegen_signal_inst sc id = .ok inst) :
    ((demand_signal_lowering sc id
        (demand_signal_lowering sc id st).2).2).entity.insts =
      st.entity.insts ++ [inst] := by
  simp only [demand_signal_lowering, codegen_signal_decl, hreg, hok, Entity.add_inst]
  simp

/-- Witness for C3: demanding the lowering of signal declaration 1 twice,
starting from an empty container with the fact registered as pending,
leaves exactly one signal instruction in the container. -/
theorem demand_signal_lowering_idempotent_witness :
    (⟨fun k => if k = 1 then some (.pending ()) else none, ⟨"top", []⟩⟩ :
        SchedState).lowered 1 = some (.pending ()) ∧
    codegen_signal_inst scW 1 =
      .ok ⟨some "sig_a", .signalInst (.int 2) (some (.const ⟨999, 1⟩))⟩ ∧
    ((demand_signal_lowering scW 1
        (demand_signal_lowering scW 1
          (⟨fun k => if k = 1 then some (.pending ()) else none,
            ⟨"top", []⟩⟩ : SchedState)).2).2).entity.insts =
      [⟨some "sig_a", .signalInst (.int 2) (some (.const ⟨999, 1⟩))⟩] :=
  ⟨rfl, rfl,
    demand_signal_lowering_idempotent scW 1
      ⟨fun k => if k = 1 then some (.pending ()) else none, ⟨"top", []⟩⟩
      ⟨some "sig_a", .signalInst (.int 2) (some (.const ⟨999, 1⟩))⟩ rfl rfl⟩

/-- C6: for an enum type whose declaration lists N literals, `map_type`
yields an enumerated type of cardinality exactly N, and `map_const` on an
enum constant of that type with index k < N yields a literal of value k
and width N. -/
theorem enum_mapping_cardinality (sc : ScoreContext) (d nm : Nat)
    (lits : List Nat) (k : EnumConst)
    (hderef : sc.deref_named_type (.enum ⟨d⟩) = .ok (.enum ⟨d⟩))
    (hhir : sc.hir_type_decl d = .ok ⟨some (.enum nm lits)⟩)
    (hk : k.decl = d) (_hidx : k.index < lits.length) :
    map_type sc (.enum ⟨d⟩) = .ok (.enum lits.length) ∧
    map_const sc (.enum k) = .ok (.const ⟨lits.length, (k.index : Int)⟩) := by
  constructor
  · simp only [map_type, Res.bind_def, hderef, Res.bind, hhir, enum_ty, Res.pure_def]
  · simp only [map_const, Res.bind_def, hk, hhir, Res.bind, const_int, Res.pure_def]

/-- Witness for C6: the enum type declaration 10 with three literals maps
to an enumerated type of cardinality 3, and its constant of index 2 maps
to the literal 2 of width 3. -/
theorem enum_mapping_cardinality_witness :
    scW.deref_named_type (.enum ⟨10⟩) = .ok (.enum ⟨10⟩) ∧
    scW.hir_type_decl 10 = .ok ⟨some (.enum 0 [1, 2, 3])⟩ ∧
    (2 : Nat) < 3 ∧
    map_type scW (.enum ⟨10⟩) = .ok (.enum 3) ∧
    map_const scW (.enum ⟨10, 2⟩) = .ok (.const ⟨3, 2⟩) :=
  ⟨rfl, rfl, by decide,
    (enum_mapping_cardinality scW 10 0 [1, 2, 3] ⟨10, 2⟩ rfl rfl rfl (by decide)).1,
    (enum_mapping_cardinality scW 10 0 [1, 2, 3] ⟨10, 2⟩ rfl rfl rfl (by decide)).2⟩

/-- C7: lowering a process statement creates a process named
"<container-name>_<label>" when a label is present and
"<container-name>_proc" otherwise, registers it at the end of the
module-wide process store (the handle referencing exactly that entry), and
appends an instantiation instruction with empty actual-port lists — named
after the label if present — at the end of the container. -/
theorem process_stmt_codegen_spec (sc : ScoreContext) (id : Nat) (m : Module)
    (ctx : Entity) (hir : ProcessStmtHir)
    (hhir : sc.hir_process id = .ok hir) :
    codegen_process_stmt sc id m ctx =
      (.ok (),
        ⟨m.processes ++
          [⟨match hir.label with
            | some n => ctx.name ++ "_" ++ n
            | none => ctx.name ++ "_proc", entity_ty [] []⟩]⟩,
        { ctx with insts := ctx.insts ++
          [⟨hir.label,
            .instanceInst (entity_ty [] []) (.process m.processes.length) [] []⟩] }) := by
  simp only [codegen_process_stmt, hhir, Module.add_process, Entity.add_inst]

/-- Witness for C7: inside the container "top", the labeled process 20 is
named "top_p1" and the unlabeled process 21 is named "top_proc"; both are
registered in the store and instantiated with empty port lists. -/
theorem process_stmt_codegen_spec_witness :
    scW.hir_process 20 = .ok ⟨some "p1"⟩ ∧
    scW.hir_process 21 = .ok ⟨none⟩ ∧
    codegen_process_stmt scW 20 ⟨[]⟩ ⟨"top", []⟩ =
      (.ok (), ⟨[⟨"top_p1", entity_ty [] []⟩]⟩,
        ⟨"top", [⟨some "p1", .instanceInst (entity_ty [] []) (.process 0) [] []⟩]⟩) ∧
    codegen_process_stmt scW 21 ⟨[]⟩ ⟨"top", []⟩ =
      (.ok (), ⟨[⟨"top_proc", entity_ty [] []⟩]⟩,
        ⟨"top", [⟨none, .instanceInst (entity_ty [] []) (.process 0) [] []⟩]⟩) :=
  ⟨rfl, rfl,
    process_stmt_codegen_spec scW 20 ⟨[]⟩ ⟨"top", []⟩ ⟨some "p1"⟩ rfl,
    process_stmt_codegen_spec scW 21 ⟨[]⟩ ⟨"top", []⟩ ⟨none⟩ rfl⟩

/-- C9: each registration method stores a `Pending` entry for the node's
id in its own fact table only — other ids and the two other tables are
unchanged — and registering a second callback for the same id and fact
kind replaces the first entry (last-writer wins). -/
theorem make_ctx_register_frame {h hr t tr v vr : Type} (mk : MakeContext)
    (tbl : LazyTables h hr t tr v vr) (f g : h) (ft gt : t) (fv gv : v) :
    ((mk.lower_to_hir tbl f).hir mk.id = some (.pending f) ∧
      (∀ k, k ≠ mk.id → (mk.lower_to_hir tbl f).hir k = tbl.hir k) ∧
      (mk.lower_to_hir tbl f).typeck = tbl.typeck ∧
      (mk.lower_to_hir tbl f).typeval = tbl.typeval) ∧
    ((mk.typeck tbl ft).typeck mk.id = some (.pending ft) ∧
      (∀ k, k ≠ mk.id → (mk.typeck tbl ft).typeck k = tbl.typeck k) ∧
      (mk.typeck tbl ft).hir = tbl.hir ∧
      (mk.typeck tbl ft).typeval = tbl.typeval) ∧
    ((mk.typeval tbl fv).typeval mk.id = some (.pending fv) ∧
      (∀ k, k ≠ mk.id → (mk.typeval tbl fv).typeval k = tbl.typeval k) ∧
      (mk.typeval tbl fv).hir = tbl.hir ∧
      (mk.typeval tbl fv).typeck = tbl.typeck) ∧
    (mk.lower_to_hir (mk.lower_to_hir tbl f) g = mk.lower_to_hir tbl g ∧
      mk.typeck (mk.typeck tbl ft) gt = mk.typeck tbl gt ∧
      mk.typeval (mk.typeval tbl fv) gv = mk.typeval tbl gv) := by
  refine ⟨⟨?_, ?_, rfl, rfl⟩, ⟨?_, ?_, rfl, rfl⟩, ⟨?_, ?_, rfl, rfl⟩, ?_, ?_, ?_⟩
  · simp [MakeContext.lower_to_hir]
  · intro k hk; simp [MakeContext.lower_to_hir, hk]
  · simp [MakeContext.typeck]
  · intro k hk; simp [MakeContext.typeck, hk]
  · simp [MakeContext.typeval]
  · intro k hk; simp [MakeContext.typeval, hk]
  · simp only [MakeContext.lower_to_hir]
    congr 1
    funext k
    by_cases hk : k = mk.id <;> simp [hk]
  · simp only [MakeContext.typeck]
    congr 1
    funext k
    by_cases hk : k = mk.id <;> simp [hk]
  · simp only [MakeContext.typeval]
    congr 1
    funext k
    by_cases hk : k = mk.id <;> simp [hk]

/-- Witness for C9: registering callbacks for node 5 on the empty tables
stores pending entries only in the respective table at id 5, and repeated
registration for the same id and kind keeps the later callback. -/
theorem make_ctx_register_frame_witness :
    (((MakeContext.new (0, 0) 5).lower_to_hir tbl0 1).hir 5 =
        some (.pending 1) ∧
      (∀ k, k ≠ 5 → ((MakeContext.new (0, 0) 5).lower_to_hir tbl0 1).hir k =
        tbl0.hir k) ∧
      ((MakeContext.new (0, 0) 5).lower_to_hir tbl0 1).typeck = tbl0.typeck ∧
      ((MakeContext.new (0, 0) 5).lower_to_hir tbl0 1).typeval = tbl0.typeval) ∧
    (((MakeContext.new (0, 0) 5).typeck tbl0 3).typeck 5 = some (.pending 3) ∧
      (∀ k, k ≠ 5 → ((MakeContext.new (0, 0) 5).typeck tbl0 3).typeck k =
        tbl0.typeck k) ∧
      ((MakeContext.new (0, 0) 5).typeck tbl0 3).hir = tbl0.hir ∧
      ((MakeContext.new (0, 0) 5).typeck tbl0 3).typeval = tbl0.typeval) ∧
    (((MakeContext.new (0, 0) 5).typeval tbl0 7).typeval 5 = some (.pending 7) ∧
      (∀ k, k ≠ 5 → ((MakeContext.new (0, 0) 5).typeval tbl0 7).typeval k =
        tbl0.typeval k) ∧
      ((MakeContext.new (0, 0) 5).typeval tbl0 7).hir = tbl0.hir ∧
      ((MakeContext.new (0, 0) 5).typeval tbl0 7).typeck = tbl0.typeck) ∧
    ((MakeContext.new (0, 0) 5).lower_to_hir
        ((MakeContext.new (0, 0) 5).lower_to_hir tbl0 1) 2 =
      (MakeContext.new (0, 0) 5).lower_to_hir tbl0 2 ∧
      (MakeContext.new (0, 0) 5).typeck
        ((MakeContext.new (0, 0) 5).typeck tbl0 3) 4 =
      (MakeContext.new (0, 0) 5).typeck tbl0 4 ∧
      (MakeContext.new (0, 0) 5).typeval
        ((MakeContext.new (0, 0) 5).typeval tbl0 7) 8 =
      (MakeContext.new (0, 0) 5).typeval tbl0 8) :=
  make_ctx_register_frame (MakeContext.new (0, 0) 5) tbl0 1 2 3 4 7 8

end Moore
